import Mathlib

set_option maxHeartbeats 1000000

set_option maxRecDepth 10000

/-!
Shallow embedding of the "President" card-game engine (src/app.py) and proofs
about its meld classifier/comparator, card serialization, turn engine and
exchange sub-engine.
-/

namespace President

/-- The `Rank` enum: ordered `3 < 4 < ... < K < A < 2`. -/
inductive Rank
  | three | four | five | six | seven | eight | nine | ten
  | jack | queen | king | ace | two
deriving DecidableEq, Repr, Fintype

/-- `rank.value[0]` in the source: the numeric order value 3..15. -/
def Rank.val : Rank → Nat
  | .three => 3
  | .four => 4
  | .five => 5
  | .six => 6
  | .seven => 7
  | .eight => 8
  | .nine => 9
  | .ten => 10
  | .jack => 11
  | .queen => 12
  | .king => 13
  | .ace => 14
  | .two => 15

/-- `rank.value[1]` in the source: the display string. -/
def Rank.disp : Rank → String
  | .three => "3"
  | .four => "4"
  | .five => "5"
  | .six => "6"
  | .seven => "7"
  | .eight => "8"
  | .nine => "9"
  | .ten => "10"
  | .jack => "J"
  | .queen => "Q"
  | .king => "K"
  | .ace => "A"
  | .two => "2"

/-- The `Suit` enum. -/
inductive Suit
  | spades | hearts | diamonds | clubs
deriving DecidableEq, Repr, Fintype

/-- `suit.value` in the source: the (single-character) suit symbol. -/
def Suit.symb : Suit → Char
  | .spades => '♠'
  | .hearts => '♥'
  | .diamonds => '♦'
  | .clubs => '♣'

/-- A card: (rank, suit) pair. -/
structure Card where
  rank : Rank
  suit : Suit
deriving DecidableEq, Repr, Fintype

/-- `self.display = f"{rank.value[1]}{suit.value}"`: rank display followed by
the suit symbol; also what `str(card)` returns. -/
def Card.display (c : Card) : String :=
  c.rank.disp ++ String.singleton c.suit.symb

/-- The `rank_map` lookup of `Card.from_str` (a `KeyError` becomes `none`). -/
def rank_from_str : String → Option Rank
  | "3" => some .three
  | "4" => some .four
  | "5" => some .five
  | "6" => some .six
  | "7" => some .seven
  | "8" => some .eight
  | "9" => some .nine
  | "10" => some .ten
  | "J" => some .jack
  | "Q" => some .queen
  | "K" => some .king
  | "A" => some .ace
  | "2" => some .two
  | _ => none

/-- The `suit_map` lookup of `Card.from_str`. -/
def suit_from_char (ch : Char) : Option Suit :=
  if ch = '♠' then some .spades
  else if ch = '♥' then some .hearts
  else if ch = '♦' then some .diamonds
  else if ch = '♣' then some .clubs
  else none

/-- Embeds `Card.from_str`: the suit is the last character (`card_str[-1]`),
the rank display is everything before it (`card_str[:-1]`). -/
def Card.from_str (s : String) : Option Card :=
  match s.data.getLast? with
  | none => none
  | some suitChar =>
    match rank_from_str (String.mk s.data.dropLast), suit_from_char suitChar with
    | some r, some su => some { rank := r, suit := su }
    | _, _ => none

/-- Python `min` over the rank values of a meld (0 on the empty list, which the
source never reaches: valid melds are nonempty). -/
def minRankVal (cards : List Card) : Nat :=
  match cards.map (fun c => c.rank.val) with
  | [] => 0
  | v :: vs => vs.foldl Nat.min v

/-- Python `max` over the rank values of a meld (0 on the empty list). -/
def maxRankVal (cards : List Card) : Nat :=
  match cards.map (fun c => c.rank.val) with
  | [] => 0
  | v :: vs => vs.foldl Nat.max v

/-- `meld[0].rank.value[0]` (0 on the empty list, unreached for valid melds). -/
def firstRankVal (cards : List Card) : Nat :=
  match cards with
  | [] => 0
  | c :: _ => c.rank.val

/-- `all(r == ranks[0] for r in ranks)` in `is_valid_meld`. -/
def allSameRank (cards : List Card) : Bool :=
  match cards with
  | [] => true
  | c :: _ => cards.all (fun d => d.rank == c.rank)

/-- The adjacent-pairs check
`all(rank_values[i] + 1 == rank_values[i+1] for i in range(len(rank_values)-1))`. -/
def consecB : List Nat → Bool
  | a :: b :: rest => (a + 1 == b) && consecB (b :: rest)
  | _ => true

/-- `sorted([c.rank.value[0] for c in cards])` (a stable ascending sort, like
Python's `sorted`). -/
def sortedVals (cards : List Card) : List Nat :=
  List.insertionSort (fun a b => a ≤ b) (cards.map (fun c => c.rank.val))

/-- Helper for `strBegins`: does the first list lead the second? -/
def charsBegin : List Char → List Char → Bool
  | [], _ => true
  | _ :: _, [] => false
  | p :: ps, c :: cs => (p == c) && charsBegin ps cs

/-- Python `s.startswith(pre)`, modelled over the character lists. -/
def strBegins (s pre : String) : Bool :=
  charsBegin pre.data s.data

/-- Embeds `is_valid_meld` (src/app.py lines 90-116).
Returns `(is_valid, meld_type_str)`. -/
def is_valid_meld (cards : List Card) : Bool × String :=
  if cards.length = 0 then (false, "No cards")
  else if cards.length > 5 then (false, "Too many cards (max 5)")
  else if cards.length = 1 then (true, "SINGLE")
  else if allSameRank cards then
    if cards.length = 2 then (true, "PAIR")
    else if cards.length = 3 then (true, "TRIPLE")
    else if cards.length = 4 then (true, "QUAD")
    else (false, "Invalid same-rank meld")
  else if 3 ≤ cards.length then
    if consecB (sortedVals cards) then (true, "RUN(" ++ toString cards.length ++ ")")
    else (false, "Invalid meld")
  else (false, "Invalid meld")

/-- Embeds `get_meld_type`: the type string when valid, else `none`. -/
def get_meld_type (cards : List Card) : Option String :=
  match is_valid_meld cards with
  | (true, t) => some t
  | (false, _) => none

/-- Embeds `compare_melds` (src/app.py lines 123-157).
Returns `(beats_table, reason_str)`. -/
def compare_melds (played_meld table_meld : List Card) : Bool × String :=
  match get_meld_type played_meld, get_meld_type table_meld with
  | some ptype, some ttype =>
    if ptype ≠ ttype then (false, "Meld type mismatch: " ++ ptype ++ " vs " ++ ttype)
    else if ptype = "SINGLE" then
      if firstRankVal played_meld > firstRankVal table_meld then (true, "Valid single")
      else (false, "Card must be higher rank")
    else if ptype = "PAIR" ∨ ptype = "TRIPLE" ∨ ptype = "QUAD" then
      if maxRankVal played_meld > maxRankVal table_meld then (true, "Valid " ++ ptype)
      else (false, ptype ++ " must be higher rank")
    else if strBegins ptype "RUN" then
      if played_meld.length ≠ table_meld.length then
        (false, "Run must be same length: " ++ toString table_meld.length ++ " cards")
      else if minRankVal played_meld > minRankVal table_meld then
        (true, "Valid RUN(" ++ toString played_meld.length ++ ")")
      else (false, "Run must start with higher card")
    else (false, "Unknown error")
  | _, _ => (false, "Invalid meld format")

/-- A player (the `Player` class): identity, name, CPU flag, hand, role
string, finish position, pass flag. -/
structure Player where
  player_id : String
  name : String
  is_cpu : Bool
  hand : List Card
  role : String
  finished_position : Option Nat
  passed : Bool
deriving DecidableEq, Repr

/-- `hand.sort(key=lambda c: c.rank.value[0])`: a stable ascending sort by
rank value, as Python `list.sort`. -/
def sortHand (hand : List Card) : List Card :=
  List.insertionSort (fun a b => a.rank.val ≤ b.rank.val) hand

/-- `Player.add_card`: append, then re-sort the hand by rank value. -/
def Player.add_card (p : Player) (c : Card) : Player :=
  { p with hand := sortHand (p.hand ++ [c]) }

/-- `Player.has_cards`: `len(self.hand) > 0`. -/
def Player.has_cards (p : Player) : Bool :=
  decide (0 < p.hand.length)

/-- The `ExchangeState` enum. -/
inductive ExchangeState
  | waiting_president | waiting_asshole | waiting_vp | waiting_va | complete
deriving DecidableEq, Repr

/-- The `Game` aggregate (the fields the claims depend on; `players` models
the insertion-ordered dict `player_id -> Player`, keyed by each player's
`player_id` field; `game_id`, `pending_exchanges` (always reset to `{}`),
`human_player_id` and `cpu_playing` play no part in the claims). -/
structure Game where
  players : List Player
  player_order : List String
  original_player_order : List String
  current_player_idx : Nat
  lead_player_idx : Nat
  table_cards : List Card
  table_meld_type : Option String
  finished_count : Nat
  state : String
  round_num : Nat
  exchange_state_enum : Option ExchangeState
  showing_2 : Bool
deriving DecidableEq, Repr

/-- `self.players.get(pid)`: dict lookup (keys are the players' ids). -/
def Game.getPlayer (g : Game) (pid : String) : Option Player :=
  g.players.find? (fun p => p.player_id == pid)

/-- In-place mutation of the player object stored under `pid`. -/
def Game.updatePlayer (g : Game) (pid : String) (f : Player → Player) : Game :=
  { g with players := g.players.map (fun p => if p.player_id == pid then f p else p) }

/-- `for p in self.players.values(): p.passed = False`. -/
def Game.resetPassed (g : Game) : Game :=
  { g with players := g.players.map (fun p => { p with passed := false }) }

/-- `for c in cards: player.remove_card(c)` (Python removes the object found
in the hand; at the value level each removal is `List.erase`). -/
def Game.removeCards (g : Game) (pid : String) (cards : List Card) : Game :=
  g.updatePlayer pid (fun p => { p with hand := cards.foldl List.erase p.hand })

/-- Embeds `Game.get_current_player`. -/
def Game.get_current_player (g : Game) : Option Player :=
  if g.player_order.isEmpty ∨ g.player_order.length ≤ g.current_player_idx then none
  else
    match g.player_order[g.current_player_idx]? with
    | none => none
    | some pid => g.getPlayer pid

/-- The body of `next_player`'s bounded rotation loop, with the remaining
`attempts` budget as explicit fuel. -/
def Game.next_player_loop : Nat → Game → Game
  | 0, g => g
  | fuel + 1, g =>
    let g1 := { g with current_player_idx := (g.current_player_idx + 1) % g.player_order.length }
    match g1.get_current_player with
    | none => Game.next_player_loop fuel g1
    | some p =>
      if p.has_cards then g1
      else
        Game.next_player_loop fuel
          (g1.updatePlayer p.player_id (fun q => { q with passed := true }))

/-- Embeds `Game.next_player` (`max_attempts = len(self.player_order) * 2`). -/
def Game.next_player (g : Game) : Game :=
  Game.next_player_loop (g.player_order.length * 2) g

/-- The result dict of the play/pass/submit operations:
`{ok, msg?, round_over?, show_2?}`. -/
structure PlayResult where
  ok : Bool
  msg : Option String := none
  round_over : Bool := false
  show_2 : Bool := false
deriving DecidableEq, Repr

/-- `{'ok': False, 'msg': m}`. -/
def errResult (m : String) : PlayResult :=
  { ok := false, msg := some m }

/-- Resolving displayed card strings against a hand, in order: each display
must match a card of the hand (`str(c) == display`), otherwise the
`Card ... not found` error of the first unmatched display. -/
def find_cards (hand : List Card) : List String → Except String (List Card)
  | [] => Except.ok []
  | d :: ds =>
    match hand.find? (fun c => c.display == d) with
    | none => Except.error ("Card " ++ d ++ " not found")
    | some c =>
      match find_cards hand ds with
      | Except.ok cs => Except.ok (c :: cs)
      | Except.error e => Except.error e

/-- `Game._game_over`: at most one player still holds cards. -/
def Game.game_over (g : Game) : Bool :=
  decide (g.players.countP (fun p => p.has_cards) ≤ 1)

/-- The repeated finish block of `play_cards` / `pass_turn`:
`if not player.has_cards(): self.finished_count += 1;
player.finished_position = self.finished_count`. -/
def Game.finishIfEmpty (g : Game) (pid : String) : Game :=
  match g.getPlayer pid with
  | some p =>
    if p.has_cards then g
    else
      { g.updatePlayer pid (fun q => { q with finished_position := some (g.finished_count + 1) })
        with finished_count := g.finished_count + 1 }
  | none => g

/-- Embeds `Game.play_cards` (src/app.py lines 307-396): result dict plus the
updated game. Once the turn guard has passed, the source's
`player = self.players.get(player_id)` is the very object `current` (dict
keys are the players' ids), so `current` supplies the hand. -/
def Game.play_cards (g : Game) (player_id : String) (card_displays : List String) :
    PlayResult × Game :=
  match g.get_current_player with
  | none => (errResult "Not your turn", g)
  | some current =>
    if current.player_id ≠ player_id then (errResult "Not your turn", g)
    else
      match find_cards current.hand card_displays with
      | Except.error m => (errResult m, g)
      | Except.ok cards =>
        match cards with
        | [] => (errResult "No cards selected", g)
        | c0 :: _ =>
          let vm := is_valid_meld cards
          if vm.1 = false then (errResult ("Invalid meld: " ++ vm.2), g)
          else if c0.rank = Rank.two then
            let g1 := g.removeCards player_id cards
            let g2 :=
              if g1.table_cards.isEmpty then { g1 with lead_player_idx := g1.current_player_idx }
              else g1
            let g3 := { g2 with table_cards := cards, table_meld_type := some "SINGLE" }
            let g4 := g3.resetPassed
            let g5 := g4.finishIfEmpty player_id
            if g5.game_over then ({ ok := true, round_over := true }, g5)
            else ({ ok := true, show_2 := true }, g5)
          else if g.table_cards.isEmpty then
            let g1 := g.removeCards player_id cards
            let g2 := { g1 with lead_player_idx := g1.current_player_idx,
                                table_cards := cards, table_meld_type := some vm.2 }
            let g3 := g2.resetPassed
            let g4 := g3.finishIfEmpty player_id
            if g4.game_over then ({ ok := true, round_over := true }, g4)
            else ({ ok := true }, g4.next_player)
          else
            let cm := compare_melds cards g.table_cards
            if cm.1 = false then (errResult ("Invalid play: " ++ cm.2), g)
            else
              let g1 := g.removeCards player_id cards
              let g2 := { g1 with table_cards := cards, table_meld_type := some vm.2 }
              let g3 := g2.resetPassed
              let g4 := g3.finishIfEmpty player_id
              if g4.game_over then ({ ok := true, round_over := true }, g4)
              else ({ ok := true }, g4.next_player)

/-- Embeds `Game.pass_turn` (src/app.py lines 398-439). The source's
`if not player.finished_position` is a falsy test, met exactly by `None`
(positions are `None` or at least 1). -/
def Game.pass_turn (g : Game) (player_id : String) : PlayResult × Game :=
  match g.get_current_player with
  | none => (errResult "Not your turn", g)
  | some current =>
    if current.player_id ≠ player_id then (errResult "Not your turn", g)
    else
      let catchUp := ¬current.has_cards ∧ current.finished_position = none
      let gA :=
        if catchUp then
          { g.updatePlayer player_id (fun q => { q with finished_position := some (g.finished_count + 1) })
            with finished_count := g.finished_count + 1 }
        else g
      if catchUp ∧ gA.game_over then ({ ok := true, round_over := true }, gA)
      else if gA.players.countP (fun p => p.has_cards) ≤ 1 then
        let gB :=
          if (gA.getPlayer player_id).bind (fun p => p.finished_position) = none then
            { gA.updatePlayer player_id (fun q => { q with finished_position := some (gA.finished_count + 1) })
              with finished_count := gA.finished_count + 1 }
          else gA
        ({ ok := true, round_over := true }, gB)
      else
        let gB := gA.updatePlayer player_id (fun q => { q with passed := true })
        let gC :=
          if gB.players.countP (fun p => p.has_cards && !p.passed) ≤ 1 then
            { gB.resetPassed with table_cards := [], table_meld_type := none, lead_player_idx := 0 }
          else gB
        ({ ok := true }, gC.next_player)

/-- `_get_president` / `_get_asshole` / `_get_vp` / `_get_va`: the first
player (in dict insertion order) holding the given role. -/
def Game.get_role (g : Game) (r : String) : Option Player :=
  g.players.find? (fun p => p.role == r)

/-- Embeds `Game._execute_exchange_submission` (src/app.py lines 626-765),
including the source's misindented `add_card` calls: after each
`for c in ...: remove_card(c)` loop, the single `add_card` call that follows
sits outside the loop and receives only the final loop value `c`, so in the
2-card branches only the last card crosses in each direction. With an empty
`cards` list the Python `add_card(c)` raises `NameError` (swallowed by the
enclosing `except`, which returns `False` with no mutation); an empty
counterpart slice leaves `c` bound to the last submitted card, which
`getLastD` mirrors. -/
def Game.exec_exchange_submission (g : Game) (pid : String) (cards : List Card) :
    Bool × Game :=
  match g.exchange_state_enum with
  | some ExchangeState.waiting_president =>
    match g.get_role "Asshole" with
    | none => (false, g)
    | some asshole =>
      if asshole.is_cpu then
        match cards.getLast? with
        | none => (false, g)
        | some clast =>
          let asshole_cards :=
            if 2 ≤ asshole.hand.length then asshole.hand.drop (asshole.hand.length - 2)
            else asshole.hand
          let g1 := g.removeCards pid cards
          let g2 := g1.updatePlayer asshole.player_id (fun p => p.add_card clast)
          let g3 := g2.removeCards asshole.player_id asshole_cards
          let g4 := g3.updatePlayer pid (fun p => p.add_card (asshole_cards.getLastD clast))
          if (g4.get_role "Vice President").isSome ∧ (g4.get_role "Vice Asshole").isSome then
            (true, { g4 with exchange_state_enum := some ExchangeState.waiting_vp })
          else
            (true, { g4 with exchange_state_enum := some ExchangeState.complete,
                             state := "playing" })
      else
        (true, { g with exchange_state_enum := some ExchangeState.waiting_asshole })
  | some ExchangeState.waiting_asshole =>
    match g.get_role "President" with
    | none => (false, g)
    | some president =>
      if president.is_cpu then
        match cards.getLast? with
        | none => (false, g)
        | some clast =>
          let president_cards :=
            if 2 ≤ president.hand.length then president.hand.drop (president.hand.length - 2)
            else president.hand
          let g1 := g.removeCards pid cards
          let g2 := g1.updatePlayer president.player_id (fun p => p.add_card clast)
          let g3 := g2.removeCards president.player_id president_cards
          let g4 := g3.updatePlayer pid (fun p => p.add_card (president_cards.getLastD clast))
          if (g4.get_role "Vice President").isSome ∧ (g4.get_role "Vice Asshole").isSome then
            (true, { g4 with exchange_state_enum := some ExchangeState.waiting_vp })
          else
            (true, { g4 with exchange_state_enum := some ExchangeState.complete,
                             state := "playing" })
      else
        if (g.get_role "Vice President").isSome ∧ (g.get_role "Vice Asshole").isSome then
          (true, { g with exchange_state_enum := some ExchangeState.waiting_vp })
        else
          (true, { g with exchange_state_enum := some ExchangeState.complete,
                          state := "playing" })
  | some ExchangeState.waiting_vp =>
    match g.get_role "Vice Asshole" with
    | none => (false, g)
    | some va =>
      if va.is_cpu then
        match cards.getLast? with
        | none => (false, g)
        | some clast =>
          let va_cards := (va.hand.getLast?).toList
          let g1 := g.removeCards pid cards
          let g2 := g1.updatePlayer va.player_id (fun p => p.add_card clast)
          let g3 := g2.removeCards va.player_id va_cards
          let g4 := g3.updatePlayer pid (fun p => p.add_card (va_cards.getLastD clast))
          (true, { g4 with exchange_state_enum := some ExchangeState.complete,
                           state := "playing" })
      else
        (true, { g with exchange_state_enum := some ExchangeState.waiting_va })
  | some ExchangeState.waiting_va =>
    match g.get_role "Vice President" with
    | none => (false, g)
    | some vp =>
      if vp.is_cpu then
        match cards.getLast? with
        | none => (false, g)
        | some clast =>
          let vp_cards := (vp.hand.getLast?).toList
          let g1 := g.removeCards pid cards
          let g2 := g1.updatePlayer vp.player_id (fun p => p.add_card clast)
          let g3 := g2.removeCards vp.player_id vp_cards
          let g4 := g3.updatePlayer pid (fun p => p.add_card (vp_cards.getLastD clast))
          (true, { g4 with exchange_state_enum := some ExchangeState.complete,
                           state := "playing" })
      else
        (true, { g with exchange_state_enum := some ExchangeState.complete,
                        state := "playing" })
  | _ => (false, g)

/-- The tail of `human_submit_exchange` once all checks passed: run
`_execute_exchange_submission`; `False` becomes the `Exchange failed`
rejection. -/
def Game.runExec (g : Game) (pid : String) (cards : List Card) : PlayResult × Game :=
  let r := g.exec_exchange_submission pid cards
  if r.1 then ({ ok := true }, r.2) else (errResult "Exchange failed", r.2)

/-- Embeds `Game.human_submit_exchange` (src/app.py lines 767-821). -/
def Game.human_submit_exchange (g : Game) (pid : String) (card_displays : List String) :
    PlayResult × Game :=
  match g.getPlayer pid with
  | none => (errResult "Player not found", g)
  | some player =>
    if g.state ≠ "exchange" then (errResult "Not in exchange phase", g)
    else
      match find_cards player.hand card_displays with
      | Except.error m => (errResult m, g)
      | Except.ok cards =>
        if cards.isEmpty then (errResult "No cards selected", g)
        else
          match g.exchange_state_enum with
          | some ExchangeState.waiting_president =>
            if player.role ≠ "President" then (errResult "Not your turn", g)
            else if cards.length ≠ 2 then (errResult "President must give 2 cards", g)
            else g.runExec pid cards
          | some ExchangeState.waiting_asshole =>
            if player.role ≠ "Asshole" then (errResult "Not your turn", g)
            else if cards.length ≠ 2 then (errResult "Asshole must give 2 cards", g)
            else g.runExec pid cards
          | some ExchangeState.waiting_vp =>
            if player.role ≠ "Vice President" then (errResult "Not your turn", g)
            else if cards.length ≠ 1 then (errResult "VP must give 1 card", g)
            else g.runExec pid cards
          | some ExchangeState.waiting_va =>
            if player.role ≠ "Vice Asshole" then (errResult "Not your turn", g)
            else if cards.length ≠ 1 then (errResult "VA must give 1 card", g)
            else g.runExec pid cards
          | _ => (errResult "Invalid state", g)

/-- The rank list of the `Rank` enum in declaration order. -/
def allRanks : List Rank :=
  [.three, .four, .five, .six, .seven, .eight, .nine, .ten,
   .jack, .queen, .king, .ace, .two]

/-- The suit list of the `Suit` enum in declaration order. -/
def allSuits : List Suit :=
  [.spades, .hearts, .diamonds, .clubs]

/-- The 52-card deck in construction order
(`for rank in Rank: for suit in Suit: deck.append(Card(rank, suit))`). -/
def fullDeck : List Card :=
  allRanks.flatMap (fun r => allSuits.map (fun s => { rank := r, suit := s }))

/-- The dealing loop
`for i, card in enumerate(deck): players[order[i % n]].add_card(card)`,
with the running index explicit. -/
def Game.deal_cards : Game → Nat → List Card → Game
  | g, _, [] => g
  | g, i, c :: rest =>
    Game.deal_cards
      (g.updatePlayer (g.player_order.getD (i % g.player_order.length) "")
        (fun p => p.add_card c))
      (i + 1) rest

/-- Embeds `Game._deal_new_hands`, parametrized by the shuffled deck
(`random.shuffle` makes the deck order an external input). -/
def Game.deal_new_hands (g : Game) (deck : List Card) : Game :=
  let g1 :=
    { g with
      players := g.players.map fun (p : Player) =>
        { p with hand := [], finished_position := none, passed := false } }
  let g2 := g1.deal_cards 0 deck
  { g2 with table_cards := [], table_meld_type := none, finished_count := 0,
            showing_2 := false }

/-- The game-state effect of the socket handler `on_play` (src/app.py lines
1084-1149) for plays that do not end the round: the `_showing_2` gate, the
play itself, and for a wild `2` the follow-up that clears the table and
resets every pass flag once the display delay elapses (`_showing_2` is set
during the delay and unset right after, so it nets to its initial `False`).
The round-over path hands over to the exchange driver and the emit/save
calls are I/O, both outside this step. -/
def Game.on_play_step (g : Game) (pid : String) (card_displays : List String) :
    PlayResult × Game :=
  if g.showing_2 then (errResult "Wait, 2 is being cleared...", g)
  else
    let r := g.play_cards pid card_displays
    if r.1.ok = false then r
    else if r.1.round_over then r
    else if r.1.show_2 then
      let g1 := { r.2 with table_cards := [], table_meld_type := none }
      (r.1, g1.resetPassed)
    else r

/-!  Preservation lemmas: which fields each state update leaves alone. -/

/-- "Valid run" as the source detects it: a valid meld whose type string
starts with `RUN` (exactly the test `compare_melds` applies). -/
def IsRunMeld (cards : List Card) : Prop :=
  (is_valid_meld cards).1 = true ∧ strBegins (is_valid_meld cards).2 "RUN" = true

/-- The multiset of all cards in play: every player's hand plus the table. -/
def Game.allCards (g : Game) : Multiset Card :=
  (g.players.map (fun p => (p.hand : Multiset Card))).sum + (g.table_cards : Multiset Card)

/-- The total number of cards in play (hand sizes plus table size). -/
def Game.totalCount (g : Game) : Nat :=
  (g.players.map (fun p => p.hand.length)).sum + g.table_cards.length

/-- A player holding `3♠ 2♠ 2♥`, about to play both 2s. -/
def wP10 : Player :=
  { player_id := "p1", name := "P1", is_cpu := false,
    hand := [⟨.three, .spades⟩, ⟨.two, .spades⟩, ⟨.two, .hearts⟩],
    role := "Citizen", finished_position := none, passed := false }

/-- The second player of the wild-branch scenario. -/
def wQ10 : Player :=
  { player_id := "p2", name := "P2", is_cpu := false,
    hand := [⟨.five, .clubs⟩], role := "Citizen", finished_position := none, passed := false }

/-- A playing-phase game whose table holds a single ace. -/
def wG10 : Game :=
  { players := [wP10, wQ10], player_order := ["p1", "p2"],
    original_player_order := ["p1", "p2"], current_player_idx := 0, lead_player_idx := 0,
    table_cards := [⟨.ace, .clubs⟩], table_meld_type := some "SINGLE", finished_count := 0,
    state := "playing", round_num := 1, exchange_state_enum := none, showing_2 := false }

/-- The human President of the exchange-transition scenario. -/
def wPre6 : Player :=
  { player_id := "P", name := "Pres", is_cpu := false,
    hand := [⟨.three, .spades⟩, ⟨.four, .spades⟩, ⟨.five, .spades⟩],
    role := "President", finished_position := none, passed := false }

/-- The computer Vice President of the exchange-transition scenario. -/
def wVp6 : Player :=
  { player_id := "V", name := "Vp", is_cpu := true, hand := [⟨.six, .hearts⟩],
    role := "Vice President", finished_position := none, passed := false }

/-- The computer Vice Asshole of the exchange-transition scenario. -/
def wVa6 : Player :=
  { player_id := "W", name := "Va", is_cpu := true, hand := [⟨.seven, .hearts⟩],
    role := "Vice Asshole", finished_position := none, passed := false }

/-- The computer Asshole of the exchange-transition scenario. -/
def wA6 : Player :=
  { player_id := "A", name := "Ass", is_cpu := true,
    hand := [⟨.six, .spades⟩, ⟨.seven, .spades⟩, ⟨.eight, .spades⟩],
    role := "Asshole", finished_position := none, passed := false }

/-- A four-player game waiting for the President's exchange submission. -/
def wG6 : Game :=
  { players := [wPre6, wVp6, wVa6, wA6], player_order := ["P", "V", "W", "A"],
    original_player_order := ["P", "V", "W", "A"], current_player_idx := 0,
    lead_player_idx := 0, table_cards := [], table_meld_type := none, finished_count := 0,
    state := "exchange", round_num := 2,
    exchange_state_enum := some ExchangeState.waiting_president, showing_2 := false }

/-- The role that may act in each exchange sub-state (the role checked by
`human_submit_exchange`). -/
def requiredRole : ExchangeState → String
  | ExchangeState.waiting_president => "President"
  | ExchangeState.waiting_asshole => "Asshole"
  | ExchangeState.waiting_vp => "Vice President"
  | ExchangeState.waiting_va => "Vice Asshole"
  | ExchangeState.complete => ""

/-- The card count each exchange sub-state demands (2 for President/Asshole,
1 for VP/VA). -/
def requiredCount : ExchangeState → Nat
  | ExchangeState.waiting_president => 2
  | ExchangeState.waiting_asshole => 2
  | ExchangeState.waiting_vp => 1
  | ExchangeState.waiting_va => 1
  | ExchangeState.complete => 0

/-- A Citizen trying to act during the President's exchange turn. -/
def wP8 : Player :=
  { player_id := "X", name := "Cit", is_cpu := false,
    hand := [⟨.three, .spades⟩, ⟨.four, .spades⟩], role := "Citizen",
    finished_position := none, passed := false }

/-- An exchange-phase game waiting for the President, with the Citizen `wP8`
registered. -/
def wG8 : Game :=
  { players := [wP8], player_order := ["X"], original_player_order := ["X"],
    current_player_idx := 0, lead_player_idx := 0, table_cards := [],
    table_meld_type := none, finished_count := 0, state := "exchange", round_num := 2,
    exchange_state_enum := some ExchangeState.waiting_president, showing_2 := false }

/-- The passing lead of the pass-turn scenario. -/
def cA7 : Player :=
  { player_id := "a", name := "A", is_cpu := false, hand := [⟨.five, .spades⟩],
    role := "Citizen", finished_position := none, passed := false }

/-- A card-holding non-lead player who has not passed. -/
def cB7 : Player :=
  { player_id := "b", name := "B", is_cpu := false, hand := [⟨.six, .spades⟩],
    role := "Citizen", finished_position := none, passed := false }

/-- A card-holding player who has already passed. -/
def cC7 : Player :=
  { player_id := "c", name := "C", is_cpu := false, hand := [⟨.seven, .spades⟩],
    role := "Citizen", finished_position := none, passed := true }

/-- Playing-phase game: `a` (the lead) is about to pass while `b` has not
passed and `c` has. -/
def cG7 : Game :=
  { players := [cA7, cB7, cC7], player_order := ["a", "b", "c"],
    original_player_order := ["a", "b", "c"], current_player_idx := 0,
    lead_player_idx := 0, table_cards := [⟨.three, .hearts⟩],
    table_meld_type := some "SINGLE", finished_count := 0, state := "playing",
    round_num := 1, exchange_state_enum := none, showing_2 := false }

/-- The President of the card-loss scenario: hand `3♠ 4♠ 5♠`. -/
def sP : Player :=
  { player_id := "P", name := "Pres", is_cpu := false,
    hand := [⟨.three, .spades⟩, ⟨.four, .spades⟩, ⟨.five, .spades⟩],
    role := "President", finished_position := none, passed := false }

/-- The computer Asshole of the card-loss scenario: hand `6♠ 7♠ 8♠`. -/
def sA : Player :=
  { player_id := "A", name := "Ass", is_cpu := true,
    hand := [⟨.six, .spades⟩, ⟨.seven, .spades⟩, ⟨.eight, .spades⟩],
    role := "Asshole", finished_position := none, passed := false }

/-- A two-player game waiting for the President's exchange submission. -/
def sG : Game :=
  { players := [sP, sA], player_order := ["P", "A"], original_player_order := ["P", "A"],
    current_player_idx := 0, lead_player_idx := 0, table_cards := [], table_meld_type := none,
    finished_count := 0, state := "exchange", round_num := 2,
    exchange_state_enum := some ExchangeState.waiting_president, showing_2 := false }

/-- Two empty-handed players, President (human) and Asshole (computer),
ready for the between-rounds redeal. -/
def dG0 : Game :=
  { players :=
      [{ player_id := "P", name := "Pres", is_cpu := false, hand := [],
         role := "President", finished_position := none, passed := false },
       { player_id := "A", name := "Ass", is_cpu := true, hand := [],
         role := "Asshole", finished_position := none, passed := false }],
    player_order := ["P", "A"], original_player_order := ["P", "A"],
    current_player_idx := 0, lead_player_idx := 0, table_cards := [], table_meld_type := none,
    finished_count := 0, state := "exchange", round_num := 2,
    exchange_state_enum := some ExchangeState.waiting_president, showing_2 := false }

/-- The game after dealing the full 52-card deck round-robin. -/
def dG : Game := dG0.deal_new_hands fullDeck

/-- The player about to drop a single `2` on a non-empty table. -/
def cP3 : Player :=
  { player_id := "p1", name := "P1", is_cpu := false,
    hand := [⟨.three, .spades⟩, ⟨.two, .spades⟩], role := "Citizen",
    finished_position := none, passed := false }

/-- The other player, holding a card and eligible to act next. -/
def cQ3 : Player :=
  { player_id := "p2", name := "P2", is_cpu := false, hand := [⟨.five, .spades⟩],
    role := "Citizen", finished_position := none, passed := false }

/-- Playing-phase game with `4♥` on the table and `p1` to act. -/
def cG3 : Game :=
  { players := [cP3, cQ3], player_order := ["p1", "p2"],
    original_player_order := ["p1", "p2"], current_player_idx := 0, lead_player_idx := 0,
    table_cards := [⟨.four, .hearts⟩], table_meld_type := some "SINGLE",
    finished_count := 0, state := "playing", round_num := 1,
    exchange_state_enum := none, showing_2 := false }

@[simp]
theorem Game.updatePlayer_table_cards (g : Game) (pid : String) (f : Player → Player) :
    (g.updatePlayer pid f).table_cards = g.table_cards := rfl

@[simp]
theorem Game.updatePlayer_table_meld_type (g : Game) (pid : String) (f : Player → Player) :
    (g.updatePlayer pid f).table_meld_type = g.table_meld_type := rfl

@[simp]
theorem Game.updatePlayer_current_idx (g : Game) (pid : String) (f : Player → Player) :
    (g.updatePlayer pid f).current_player_idx = g.current_player_idx := rfl

@[simp]
theorem Game.updatePlayer_state (g : Game) (pid : String) (f : Player → Player) :
    (g.updatePlayer pid f).state = g.state := rfl

@[simp]
theorem Game.updatePlayer_enum (g : Game) (pid : String) (f : Player → Player) :
    (g.updatePlayer pid f).exchange_state_enum = g.exchange_state_enum := rfl

@[simp]
theorem Game.updatePlayer_players (g : Game) (pid : String) (f : Player → Player) :
    (g.updatePlayer pid f).players =
      g.players.map (fun p => if p.player_id == pid then f p else p) := rfl

@[simp]
theorem Game.resetPassed_table_cards (g : Game) :
    g.resetPassed.table_cards = g.table_cards := rfl

@[simp]
theorem Game.resetPassed_table_meld_type (g : Game) :
    g.resetPassed.table_meld_type = g.table_meld_type := rfl

@[simp]
theorem Game.resetPassed_current_idx (g : Game) :
    g.resetPassed.current_player_idx = g.current_player_idx := rfl

@[simp]
theorem Game.resetPassed_players (g : Game) :
    g.resetPassed.players = g.players.map (fun p => { p with passed := false }) := rfl

@[simp]
theorem Game.removeCards_table_cards (g : Game) (pid : String) (cs : List Card) :
    (g.removeCards pid cs).table_cards = g.table_cards := rfl

@[simp]
theorem Game.removeCards_players (g : Game) (pid : String) (cs : List Card) :
    (g.removeCards pid cs).players =
      g.players.map (fun p => if p.player_id == pid
        then { p with hand := cs.foldl List.erase p.hand } else p) := rfl

@[simp]
theorem Game.removeCards_current_idx (g : Game) (pid : String) (cs : List Card) :
    (g.removeCards pid cs).current_player_idx = g.current_player_idx := rfl

@[simp]
theorem Game.finishIfEmpty_table_cards (g : Game) (pid : String) :
    (g.finishIfEmpty pid).table_cards = g.table_cards := by
  unfold Game.finishIfEmpty
  cases g.getPlayer pid with
  | none => rfl
  | some p => by_cases h : p.has_cards <;> simp [h]

@[simp]
theorem Game.finishIfEmpty_table_meld_type (g : Game) (pid : String) :
    (g.finishIfEmpty pid).table_meld_type = g.table_meld_type := by
  unfold Game.finishIfEmpty
  cases g.getPlayer pid with
  | none => rfl
  | some p => by_cases h : p.has_cards <;> simp [h]

@[simp]
theorem Game.finishIfEmpty_current_idx (g : Game) (pid : String) :
    (g.finishIfEmpty pid).current_player_idx = g.current_player_idx := by
  unfold Game.finishIfEmpty
  cases g.getPlayer pid with
  | none => rfl
  | some p => by_cases h : p.has_cards <;> simp [h]

@[simp]
theorem Player.add_card_role (p : Player) (c : Card) :
    (p.add_card c).role = p.role := rfl

@[simp]
theorem Player.add_card_player_id (p : Player) (c : Card) :
    (p.add_card c).player_id = p.player_id := rfl

/-- `next_player_loop` only rotates the index and sets pass flags; it never
touches the table. -/
theorem Game.next_player_loop_table_cards (fuel : Nat) (g : Game) :
    (Game.next_player_loop fuel g).table_cards = g.table_cards := by
  induction fuel generalizing g with
  | zero => rfl
  | succ n ih =>
    unfold Game.next_player_loop
    dsimp only
    split
    · exact ih _
    · split
      · rfl
      · exact ih _

theorem Game.next_player_loop_table_meld_type (fuel : Nat) (g : Game) :
    (Game.next_player_loop fuel g).table_meld_type = g.table_meld_type := by
  induction fuel generalizing g with
  | zero => rfl
  | succ n ih =>
    unfold Game.next_player_loop
    dsimp only
    split
    · exact ih _
    · split
      · rfl
      · exact ih _

@[simp]
theorem Game.next_player_table_cards (g : Game) :
    g.next_player.table_cards = g.table_cards :=
  Game.next_player_loop_table_cards _ _

@[simp]
theorem Game.next_player_table_meld_type (g : Game) :
    g.next_player.table_meld_type = g.table_meld_type :=
  Game.next_player_loop_table_meld_type _ _

/-- A list holding two distinct elements that satisfy `p` has `countP p ≥ 2`. -/
theorem two_le_countP {α : Type} (p : α → Bool) (l : List α) (a b : α)
    (ha : a ∈ l) (hb : b ∈ l) (hab : a ≠ b) (hpa : p a = true) (hpb : p b = true) :
    2 ≤ l.countP p := by
  induction l with
  | nil => simp at ha
  | cons x t ih =>
    rcases List.mem_cons.mp ha with rfl | hat
    · have hbt : b ∈ t := by
        rcases List.mem_cons.mp hb with rfl | h
        · exact absurd rfl hab
        · exact h
      have h1 : 0 < t.countP p := List.countP_pos_iff.mpr ⟨b, hbt, hpb⟩
      rw [List.countP_cons, if_pos hpa]
      omega
    · rcases List.mem_cons.mp hb with rfl | hbt
      · have h1 : 0 < t.countP p := List.countP_pos_iff.mpr ⟨a, hat, hpa⟩
        rw [List.countP_cons, if_pos hpb]
        omega
      · have h2 := ih hat hbt
        rw [List.countP_cons]
        have hif : (if p x = true then 1 else 0) ≤ 1 := by split <;> omega
        omega

/-- Display strings determine cards: serialization is injective on the 52
possible cards. -/
theorem Card.display_inj : ∀ c d : Card, c.display = d.display → c = d := by decide

/-!  Classifier lemmas: the consecutive check, sortedness, and same-rank
groups, needed to characterize `is_valid_meld` and `compare_melds`. -/

/-- `consecB (x :: l)` holds exactly when the list is the block of
consecutive integers starting at `x`. -/
theorem consecB_cons_iff (x : Nat) (l : List Nat) :
    consecB (x :: l) = true ↔ x :: l = List.range' x (l.length + 1) := by
  induction l generalizing x with
  | nil => simp [consecB, List.range']
  | cons y t ih =>
    constructor
    · intro h
      simp only [consecB, Bool.and_eq_true, beq_iff_eq] at h
      obtain ⟨h1, h2⟩ := h
      subst h1
      have h3 := (ih (x + 1)).mp h2
      rw [List.length_cons, List.range'_succ, ← h3]
    · intro h
      rw [List.length_cons, List.range'_succ] at h
      have h2 : y :: t = List.range' (x + 1) (t.length + 1) := by
        injection h
      have hy : x + 1 = y := by
        rw [List.range'_succ] at h2
        injection h2 with hy _
        exact hy.symm
      simp only [consecB, Bool.and_eq_true, beq_iff_eq]
      exact ⟨hy, (ih y).mpr (by rw [← hy]; exact hy ▸ h2)⟩

/-- The adjacent `+1` check holds exactly when the list is some block of
consecutive integers. -/
theorem consecB_iff_range' (l : List Nat) :
    consecB l = true ↔ ∃ a, l = List.range' a l.length := by
  cases l with
  | nil =>
    constructor
    · intro _; exact ⟨0, rfl⟩
    · intro _; rfl
  | cons x t =>
    rw [consecB_cons_iff]
    constructor
    · intro h; exact ⟨x, by simpa using h⟩
    · rintro ⟨a, ha⟩
      have hax : a = x := by
        rw [List.length_cons, List.range'_succ] at ha
        injection ha with h1 _
        exact h1.symm
      subst hax
      simpa using ha

theorem sortedVals_perm (cards : List Card) :
    (sortedVals cards).Perm (cards.map (fun c => c.rank.val)) :=
  List.perm_insertionSort _ _

theorem sortedVals_sorted (cards : List Card) :
    List.Sorted (fun a b => a ≤ b) (sortedVals cards) :=
  List.sorted_insertionSort _ _

theorem sorted_le_range' (a n : Nat) :
    List.Sorted (fun x y => x ≤ y) (List.range' a n) :=
  (List.pairwise_lt_range' a n).imp (fun h => Nat.le_of_lt h)

/-- The source's run test (sort the rank values, check adjacent `+1`) holds
exactly when the rank values are a permutation of a consecutive block. -/
theorem consec_sorted_iff_run (cards : List Card) :
    consecB (sortedVals cards) = true ↔
      ∃ a, (cards.map (fun c => c.rank.val)).Perm (List.range' a cards.length) := by
  rw [consecB_iff_range']
  have hperm := sortedVals_perm cards
  have hlen : (sortedVals cards).length = cards.length := by
    rw [hperm.length_eq, List.length_map]
  constructor
  · rintro ⟨a, ha⟩
    rw [hlen] at ha
    exact ⟨a, hperm.symm.trans (List.Perm.of_eq ha)⟩
  · rintro ⟨a, ha⟩
    have hs : sortedVals cards = List.range' a cards.length :=
      List.eq_of_perm_of_sorted (hperm.trans ha) (sortedVals_sorted cards) (sorted_le_range' a _)
    exact ⟨a, by rw [hlen, hs]⟩

/-- The source's same-rank test holds exactly when any two cards of the
selection share a rank. -/
theorem allSameRank_iff (cards : List Card) :
    allSameRank cards = true ↔ ∀ c ∈ cards, ∀ d ∈ cards, c.rank = d.rank := by
  cases cards with
  | nil => simp [allSameRank]
  | cons c t =>
    simp only [allSameRank, List.all_eq_true, beq_iff_eq]
    constructor
    · intro h x hx y hy
      rw [h x hx, h y hy]
    · intro h x hx
      exact h x hx c (List.mem_cons_self c t)

/-- A same-rank selection of two or more cards is never a permutation of a
consecutive block (its rank values repeat). -/
theorem allSame_no_range' (cards : List Card) (h2 : 2 ≤ cards.length)
    (hs : allSameRank cards = true) :
    ¬ ∃ a, (cards.map (fun c => c.rank.val)).Perm (List.range' a cards.length) := by
  rintro ⟨a, ha⟩
  have hnd : (cards.map (fun c => c.rank.val)).Nodup :=
    ha.nodup_iff.mpr (List.nodup_range' a cards.length)
  cases cards with
  | nil => simp at h2
  | cons c t =>
    cases t with
    | nil => simp at h2
    | cons d t2 =>
      have hcd : d.rank = c.rank := by
        rw [allSameRank_iff] at hs
        exact hs d (by simp) c (by simp)
      simp only [List.map_cons, List.nodup_cons, List.mem_cons, not_or] at hnd
      exact hnd.1.1 (by rw [hcd])

/-!  Branch lemmas for the classifier characterization. -/

theorem ivm_single_iff (cards : List Card) :
    is_valid_meld cards = (true, "SINGLE") ↔ cards.length = 1 := by
  unfold is_valid_meld
  split_ifs with h0 h5 h1 hsame h2 h3 h4 hr hcons
  · simp; omega
  · simp; omega
  · simpa using h1
  · simp; omega
  · simp; omega
  · simp; omega
  · simp; omega
  · constructor
    · intro h
      have hl : cards.length = 3 ∨ cards.length = 4 ∨ cards.length = 5 := by omega
      rcases hl with hl | hl | hl <;> rw [hl] at h <;> exact absurd h (by decide)
    · intro h; exfalso; omega
  · simp; omega
  · simp; omega

theorem ivm_pair_iff (cards : List Card) :
    is_valid_meld cards = (true, "PAIR") ↔
      cards.length = 2 ∧ ∀ c ∈ cards, ∀ d ∈ cards, c.rank = d.rank := by
  unfold is_valid_meld
  split_ifs with h0 h5 h1 hsame h2 h3 h4 hr hcons
  · simp; omega
  · simp; omega
  · simp; omega
  · simpa [h2] using (allSameRank_iff cards).mp hsame
  · simp; omega
  · simp; omega
  · simp; omega
  · constructor
    · intro h
      have hl : cards.length = 3 ∨ cards.length = 4 ∨ cards.length = 5 := by omega
      rcases hl with hl | hl | hl <;> rw [hl] at h <;> exact absurd h (by decide)
    · rintro ⟨h, -⟩; exfalso; omega
  · constructor
    · intro h; exact absurd h (by simp)
    · rintro ⟨-, h⟩; exact absurd ((allSameRank_iff cards).mpr h) hsame
  · constructor
    · intro h; exact absurd h (by simp)
    · rintro ⟨-, h⟩; exact absurd ((allSameRank_iff cards).mpr h) hsame

theorem ivm_triple_iff (cards : List Card) :
    is_valid_meld cards = (true, "TRIPLE") ↔
      cards.length = 3 ∧ ∀ c ∈ cards, ∀ d ∈ cards, c.rank = d.rank := by
  unfold is_valid_meld
  split_ifs with h0 h5 h1 hsame h2 h3 h4 hr hcons
  · simp; omega
  · simp; omega
  · simp; omega
  · simp; omega
  · simpa [h3] using (allSameRank_iff cards).mp hsame
  · simp; omega
  · simp; omega
  · constructor
    · intro h
      have hl : cards.length = 3 ∨ cards.length = 4 ∨ cards.length = 5 := by omega
      rcases hl with hl | hl | hl <;> rw [hl] at h <;> exact absurd h (by decide)
    · rintro ⟨-, h⟩; exact absurd ((allSameRank_iff cards).mpr h) hsame
  · constructor
    · intro h; exact absurd h (by simp)
    · rintro ⟨-, h⟩; exact absurd ((allSameRank_iff cards).mpr h) hsame
  · constructor
    · intro h; exact absurd h (by simp)
    · rintro ⟨-, h⟩; exact absurd ((allSameRank_iff cards).mpr h) hsame

theorem ivm_quad_iff (cards : List Card) :
    is_valid_meld cards = (true, "QUAD") ↔
      cards.length = 4 ∧ ∀ c ∈ cards, ∀ d ∈ cards, c.rank = d.rank := by
  unfold is_valid_meld
  split_ifs with h0 h5 h1 hsame h2 h3 h4 hr hcons
  · simp; omega
  · simp; omega
  · simp; omega
  · simp; omega
  · simp; omega
  · simpa [h4] using (allSameRank_iff cards).mp hsame
  · simp; omega
  · constructor
    · intro h
      have hl : cards.length = 3 ∨ cards.length = 4 ∨ cards.length = 5 := by omega
      rcases hl with hl | hl | hl <;> rw [hl] at h <;> exact absurd h (by decide)
    · rintro ⟨-, h⟩; exact absurd ((allSameRank_iff cards).mpr h) hsame
  · constructor
    · intro h; exact absurd h (by simp)
    · rintro ⟨-, h⟩; exact absurd ((allSameRank_iff cards).mpr h) hsame
  · constructor
    · intro h; exact absurd h (by simp)
    · rintro ⟨-, h⟩; exact absurd ((allSameRank_iff cards).mpr h) hsame

theorem ivm_run_iff (cards : List Card) :
    is_valid_meld cards = (true, "RUN(" ++ toString cards.length ++ ")") ↔
      3 ≤ cards.length ∧ cards.length ≤ 5 ∧
        ∃ a, (cards.map (fun c => c.rank.val)).Perm (List.range' a cards.length) := by
  unfold is_valid_meld
  split_ifs with h0 h5 h1 hsame h2 h3 h4 hr hcons
  · constructor
    · intro h; exact absurd h (by simp)
    · rintro ⟨h, -, -⟩; exfalso; omega
  · constructor
    · intro h; exact absurd h (by simp)
    · rintro ⟨-, h, -⟩; exfalso; omega
  · constructor
    · intro h; rw [h1] at h; exact absurd h (by decide)
    · rintro ⟨h, -, -⟩; exfalso; omega
  · constructor
    · intro h; rw [h2] at h; exact absurd h (by decide)
    · rintro ⟨h, -, -⟩; exfalso; omega
  · constructor
    · intro h; rw [h3] at h; exact absurd h (by decide)
    · rintro ⟨-, -, a, hp⟩
      exact absurd ⟨a, hp⟩ (allSame_no_range' cards (by omega) hsame)
  · constructor
    · intro h; rw [h4] at h; exact absurd h (by decide)
    · rintro ⟨-, -, a, hp⟩
      exact absurd ⟨a, hp⟩ (allSame_no_range' cards (by omega) hsame)
  · constructor
    · intro h; exact absurd h (by simp)
    · rintro ⟨-, -, a, hp⟩
      exact absurd ⟨a, hp⟩ (allSame_no_range' cards (by omega) hsame)
  · simp only [Prod.mk.injEq, true_and]
    constructor
    · intro _
      exact ⟨hr, by omega, (consec_sorted_iff_run cards).mp hcons⟩
    · intro _; trivial
  · constructor
    · intro h; exact absurd h (by simp)
    · rintro ⟨-, -, a, hp⟩
      exact absurd ((consec_sorted_iff_run cards).mpr ⟨a, hp⟩) hcons
  · constructor
    · intro h; exact absurd h (by simp)
    · rintro ⟨h, -, -⟩; exfalso; omega

theorem ivm_valid_iff (cards : List Card) :
    (is_valid_meld cards).1 = true ↔
      cards.length = 1
      ∨ (2 ≤ cards.length ∧ cards.length ≤ 4 ∧ ∀ c ∈ cards, ∀ d ∈ cards, c.rank = d.rank)
      ∨ (3 ≤ cards.length ∧ cards.length ≤ 5 ∧
          ∃ a, (cards.map (fun c => c.rank.val)).Perm (List.range' a cards.length)) := by
  unfold is_valid_meld
  split_ifs with h0 h5 h1 hsame h2 h3 h4 hr hcons
  · constructor
    · intro h; exact absurd h (by simp)
    · rintro (h | ⟨h, -, -⟩ | ⟨h, -, -⟩) <;> exfalso <;> omega
  · constructor
    · intro h; exact absurd h (by simp)
    · rintro (h | ⟨-, h, -⟩ | ⟨-, h, -⟩) <;> exfalso <;> omega
  · constructor
    · intro _; exact Or.inl h1
    · intro _; rfl
  · constructor
    · intro _
      exact Or.inr (Or.inl ⟨by omega, by omega, (allSameRank_iff cards).mp hsame⟩)
    · intro _; rfl
  · constructor
    · intro _
      exact Or.inr (Or.inl ⟨by omega, by omega, (allSameRank_iff cards).mp hsame⟩)
    · intro _; rfl
  · constructor
    · intro _
      exact Or.inr (Or.inl ⟨by omega, by omega, (allSameRank_iff cards).mp hsame⟩)
    · intro _; rfl
  · constructor
    · intro h; exact absurd h (by simp)
    · rintro (h | ⟨-, h, -⟩ | ⟨-, -, a, hp⟩)
      · exact absurd h (by omega)
      · exact absurd h (by omega)
      · exact absurd ⟨a, hp⟩ (allSame_no_range' cards (by omega) hsame)
  · constructor
    · intro _
      exact Or.inr (Or.inr ⟨hr, by omega, (consec_sorted_iff_run cards).mp hcons⟩)
    · intro _; rfl
  · constructor
    · intro h; exact absurd h (by simp)
    · rintro (h | ⟨-, -, h⟩ | ⟨-, -, a, hp⟩)
      · exact absurd h (by omega)
      · exact absurd ((allSameRank_iff cards).mpr h) hsame
      · exact absurd ((consec_sorted_iff_run cards).mpr ⟨a, hp⟩) hcons
  · constructor
    · intro h; exact absurd h (by simp)
    · rintro (h | ⟨-, -, h⟩ | ⟨h, -, -⟩)
      · exact absurd h (by omega)
      · exact absurd ((allSameRank_iff cards).mpr h) hsame
      · exact absurd h (by omega)

/-- A valid run classifies as `RUN(length)` and has 3 to 5 cards. -/
theorem run_meld_type (cards : List Card) (h : IsRunMeld cards) :
    is_valid_meld cards = (true, "RUN(" ++ toString cards.length ++ ")")
    ∧ 3 ≤ cards.length ∧ cards.length ≤ 5 := by
  obtain ⟨hv, hb⟩ := h
  unfold is_valid_meld at hv hb ⊢
  split_ifs at hv hb ⊢ with h0 h5 h1 hsame h2 h3 h4 hr hcons
  · exact absurd hb (by decide)
  · exact absurd hb (by decide)
  · exact absurd hb (by decide)
  · exact absurd hb (by decide)
  · exact ⟨rfl, hr, by omega⟩

/-- **C4.** For any two valid runs, `compare_melds` accepts exactly when the
runs have the same length and the played run's minimum rank value strictly
exceeds the table run's minimum rank value; runs of different lengths are
rejected even though both are runs. -/
theorem compare_melds_runs_iff (p t : List Card) (hp : IsRunMeld p) (ht : IsRunMeld t) :
    (compare_melds p t).1 = true ↔
      p.length = t.length ∧ minRankVal t < minRankVal p := by
  obtain ⟨hpe, hp3, hp5⟩ := run_meld_type p hp
  obtain ⟨hte, ht3, ht5⟩ := run_meld_type t ht
  have hgp : get_meld_type p = some ("RUN(" ++ toString p.length ++ ")") := by
    unfold get_meld_type
    rw [hpe]
  have hgt : get_meld_type t = some ("RUN(" ++ toString t.length ++ ")") := by
    unfold get_meld_type
    rw [hte]
  have hpl : p.length = 3 ∨ p.length = 4 ∨ p.length = 5 := by omega
  have htl : t.length = 3 ∨ t.length = 4 ∨ t.length = 5 := by omega
  unfold compare_melds
  rcases hpl with hp' | hp' | hp' <;> rcases htl with ht' | ht' | ht' <;>
    rw [hp'] at hgp <;> rw [ht'] at hgt <;> simp only [hgp, hgt, hp', ht'] <;>
    first
    | (rw [if_pos (by decide)]
       simp)
    | (rw [if_neg (by decide), if_neg (by decide), if_neg (by decide), if_pos (by decide),
          if_neg (by decide)]
       split_ifs with hc <;> simp [hc])

/-- Witness: `[5,6,7]` and `[3,4,5]` are valid runs and the first beats the
second (same length, higher minimum). -/
theorem compare_melds_runs_iff_witness :
    IsRunMeld [⟨.five, .spades⟩, ⟨.six, .hearts⟩, ⟨.seven, .hearts⟩]
    ∧ IsRunMeld [⟨.three, .spades⟩, ⟨.four, .hearts⟩, ⟨.five, .hearts⟩]
    ∧ (compare_melds [⟨.five, .spades⟩, ⟨.six, .hearts⟩, ⟨.seven, .hearts⟩]
        [⟨.three, .spades⟩, ⟨.four, .hearts⟩, ⟨.five, .hearts⟩]).1 = true :=
  ⟨⟨by decide, by decide⟩, ⟨by decide, by decide⟩,
    (compare_melds_runs_iff
      [⟨.five, .spades⟩, ⟨.six, .hearts⟩, ⟨.seven, .hearts⟩]
      [⟨.three, .spades⟩, ⟨.four, .hearts⟩, ⟨.five, .hearts⟩]
      ⟨by decide, by decide⟩ ⟨by decide, by decide⟩).mpr ⟨by decide, by decide⟩⟩

/-- **C5.** Full characterization of the meld classifier: SINGLE iff one
card; PAIR/TRIPLE/QUAD iff 2/3/4 cards of one rank; `RUN(length)` iff 3 to 5
cards whose rank values form a block of consecutive integers; and a selection
is valid exactly in those cases, so the empty selection, more than 5 cards,
and a same-rank group of 5 are invalid. -/
theorem classify_characterization (cards : List Card) :
    (is_valid_meld cards = (true, "SINGLE") ↔ cards.length = 1)
    ∧ (is_valid_meld cards = (true, "PAIR") ↔
        cards.length = 2 ∧ ∀ c ∈ cards, ∀ d ∈ cards, c.rank = d.rank)
    ∧ (is_valid_meld cards = (true, "TRIPLE") ↔
        cards.length = 3 ∧ ∀ c ∈ cards, ∀ d ∈ cards, c.rank = d.rank)
    ∧ (is_valid_meld cards = (true, "QUAD") ↔
        cards.length = 4 ∧ ∀ c ∈ cards, ∀ d ∈ cards, c.rank = d.rank)
    ∧ (is_valid_meld cards = (true, "RUN(" ++ toString cards.length ++ ")") ↔
        3 ≤ cards.length ∧ cards.length ≤ 5 ∧
          ∃ a, (cards.map (fun c => c.rank.val)).Perm (List.range' a cards.length))
    ∧ ((is_valid_meld cards).1 = true ↔
        cards.length = 1
        ∨ (2 ≤ cards.length ∧ cards.length ≤ 4 ∧ ∀ c ∈ cards, ∀ d ∈ cards, c.rank = d.rank)
        ∨ (3 ≤ cards.length ∧ cards.length ≤ 5 ∧
            ∃ a, (cards.map (fun c => c.rank.val)).Perm (List.range' a cards.length))) :=
  ⟨ivm_single_iff cards, ivm_pair_iff cards, ivm_triple_iff cards, ivm_quad_iff cards,
    ivm_run_iff cards, ivm_valid_iff cards⟩

/-- **C9.** Serializing any card of the 52-card deck as
`<rank-display><suit-symbol>` and parsing the string back yields the
identical (rank, suit) pair. -/
theorem card_roundtrip :
    ∀ (r : Rank) (s : Suit), Card.from_str (Card.display ⟨r, s⟩) = some ⟨r, s⟩ := by decide

/-- **C10.** In `play_cards` the wild-reset branch fires for every valid meld
whose first listed card has rank `2`, not only for a single `2`: the play is
accepted with no comparison against the table (whatever the table holds), the
cards become the table content, and the recorded table meld kind is `SINGLE`
even for a pair of 2s. -/
theorem play_cards_wild_branch (g : Game) (current : Player) (pid : String)
    (displays : List String) (c0 : Card) (rest : List Card)
    (hcur : g.get_current_player = some current)
    (hid : current.player_id = pid)
    (hfind : find_cards current.hand displays = Except.ok (c0 :: rest))
    (hvalid : (is_valid_meld (c0 :: rest)).1 = true)
    (h2 : c0.rank = Rank.two) :
    (g.play_cards pid displays).1.ok = true
    ∧ (g.play_cards pid displays).2.table_meld_type = some "SINGLE"
    ∧ (g.play_cards pid displays).2.table_cards = c0 :: rest := by
  unfold Game.play_cards
  simp only [hcur, hid, hfind, hvalid, h2]
  split_ifs <;> simp_all

/-- Witness for the wild branch: the pair `2♠ 2♥` is accepted over a table
holding a single ace, and the table kind is recorded as `SINGLE`. -/
theorem play_cards_wild_branch_witness :
    (wG10.play_cards "p1" ["2♠", "2♥"]).1.ok = true
    ∧ (wG10.play_cards "p1" ["2♠", "2♥"]).2.table_meld_type = some "SINGLE"
    ∧ (wG10.play_cards "p1" ["2♠", "2♥"]).2.table_cards =
        [⟨.two, .spades⟩, ⟨.two, .hearts⟩] :=
  play_cards_wild_branch wG10 wP10 "p1" ["2♠", "2♥"] ⟨.two, .spades⟩ [⟨.two, .hearts⟩]
    (by decide) (by decide) (by rfl) (by decide) (by decide)

/-- Updating one player's hand (or any role-preserving update) does not change
whether some player holds a given role. -/
theorem get_role_isSome_updatePlayer (g : Game) (pid : String) (f : Player → Player)
    (hf : ∀ p, (f p).role = p.role) (r : String) :
    ((g.updatePlayer pid f).get_role r).isSome = (g.get_role r).isSome := by
  unfold Game.get_role
  simp only [Game.updatePlayer_players, List.find?_map]
  have hcomp : ((fun (p : Player) => p.role == r) ∘
      fun p => if p.player_id == pid then f p else p) = fun p => p.role == r := by
    funext p
    by_cases h : p.player_id = pid <;> simp [h, hf]
  rw [hcomp]
  cases g.players.find? (fun p => p.role == r) <;> simp

@[simp]
theorem get_role_isSome_removeCards (g : Game) (pid : String) (cs : List Card) (r : String) :
    ((g.removeCards pid cs).get_role r).isSome = (g.get_role r).isSome :=
  get_role_isSome_updatePlayer g pid
    (fun p => { p with hand := cs.foldl List.erase p.hand }) (fun _ => rfl) r

@[simp]
theorem get_role_isSome_addCard (g : Game) (pid : String) (c : Card) (r : String) :
    ((g.updatePlayer pid (fun p => p.add_card c)).get_role r).isSome =
      (g.get_role r).isSome :=
  get_role_isSome_updatePlayer g pid (fun p => p.add_card c) (fun _ => rfl) r

/-- **C6.** From `WAITING_PRESIDENT`, a successful President submission
(the Asshole exists and at least one card is given) moves the sub-state to
`WAITING_VP` when the Asshole is a computer and both a Vice President and a
Vice Asshole exist, to `COMPLETE` with the phase set back to `playing` when
the Asshole is a computer and VP/VA do not both exist, and to
`WAITING_ASSHOLE` when the Asshole is human. -/
theorem exec_president_transitions (g : Game) (ass : Player) (pid : String)
    (cards : List Card)
    (henum : g.exchange_state_enum = some ExchangeState.waiting_president)
    (hass : g.get_role "Asshole" = some ass)
    (hcards : cards ≠ []) :
    (g.exec_exchange_submission pid cards).1 = true
    ∧ (ass.is_cpu = true →
        ((g.get_role "Vice President").isSome = true
            ∧ (g.get_role "Vice Asshole").isSome = true →
          (g.exec_exchange_submission pid cards).2.exchange_state_enum =
            some ExchangeState.waiting_vp)
        ∧ (¬((g.get_role "Vice President").isSome = true
            ∧ (g.get_role "Vice Asshole").isSome = true) →
          (g.exec_exchange_submission pid cards).2.exchange_state_enum =
            some ExchangeState.complete
          ∧ (g.exec_exchange_submission pid cards).2.state = "playing"))
    ∧ (ass.is_cpu = false →
        (g.exec_exchange_submission pid cards).2.exchange_state_enum =
          some ExchangeState.waiting_asshole) := by
  obtain ⟨clast, hlast⟩ : ∃ c, cards.getLast? = some c := by
    cases hc : cards.getLast? with
    | none => exact absurd (List.getLast?_eq_none_iff.mp hc) hcards
    | some c => exact ⟨c, rfl⟩
  unfold Game.exec_exchange_submission
  simp only [henum, hass, hlast]
  cases hcpu : ass.is_cpu
  · simp [hcpu]
  · simp only [hcpu, if_true]
    by_cases hvv : (g.get_role "Vice President").isSome = true
        ∧ (g.get_role "Vice Asshole").isSome = true
    · rw [if_pos (by simpa using hvv)]
      simp [hvv]
    · rw [if_neg (by simpa using hvv)]
      simp [hvv]

/-- Witness: with a computer Asshole and both VP and VA present, the
President's submission succeeds and the sub-state advances to `WAITING_VP`. -/
theorem exec_president_transitions_witness :
    (wG6.exec_exchange_submission "P" [⟨.three, .spades⟩, ⟨.four, .spades⟩]).1 = true
    ∧ (wG6.exec_exchange_submission "P"
        [⟨.three, .spades⟩, ⟨.four, .spades⟩]).2.exchange_state_enum =
      some ExchangeState.waiting_vp :=
  ⟨(exec_president_transitions wG6 wA6 "P" [⟨.three, .spades⟩, ⟨.four, .spades⟩]
      rfl (by decide) (by decide)).1,
   ((exec_president_transitions wG6 wA6 "P" [⟨.three, .spades⟩, ⟨.four, .spades⟩]
      rfl (by decide) (by decide)).2.1 (by decide)).1 (by decide)⟩

/-- **C8.** A human exchange submission whose cards all resolve against the
submitter's hand is rejected with the game state unchanged whenever the game
is not in the exchange phase, and, in any waiting sub-state, whenever the
submitter's role is not the designated one or the number of submitted cards
differs from the required count. -/
theorem human_submit_rejections (g : Game) (pid : String) (displays : List String)
    (player : Player) (cards : List Card)
    (hp : g.getPlayer pid = some player)
    (hc : find_cards player.hand displays = Except.ok cards)
    (hne : cards ≠ []) :
    (g.state ≠ "exchange" →
      (g.human_submit_exchange pid displays).1.ok = false
      ∧ (g.human_submit_exchange pid displays).2 = g)
    ∧ (∀ es, g.exchange_state_enum = some es → es ≠ ExchangeState.complete →
        player.role ≠ requiredRole es ∨ cards.length ≠ requiredCount es →
        (g.human_submit_exchange pid displays).1.ok = false
        ∧ (g.human_submit_exchange pid displays).2 = g) := by
  constructor
  · intro hst
    unfold Game.human_submit_exchange
    simp only [hp]
    rw [if_pos hst]
    exact ⟨rfl, rfl⟩
  · intro es hes hnc hbad
    unfold Game.human_submit_exchange
    simp only [hp, hes, hc]
    by_cases hst : g.state ≠ "exchange"
    · rw [if_pos hst]
      exact ⟨rfl, rfl⟩
    · rw [if_neg hst, if_neg (by simpa using hne)]
      cases es
      · dsimp only
        rcases hbad with hrole | hcount
        · simp only [requiredRole] at hrole
          rw [if_pos hrole]
          exact ⟨rfl, rfl⟩
        · simp only [requiredCount] at hcount
          by_cases hr : player.role ≠ "President"
          · rw [if_pos hr]
            exact ⟨rfl, rfl⟩
          · rw [if_neg hr, if_pos hcount]
            exact ⟨rfl, rfl⟩
      · dsimp only
        rcases hbad with hrole | hcount
        · simp only [requiredRole] at hrole
          rw [if_pos hrole]
          exact ⟨rfl, rfl⟩
        · simp only [requiredCount] at hcount
          by_cases hr : player.role ≠ "Asshole"
          · rw [if_pos hr]
            exact ⟨rfl, rfl⟩
          · rw [if_neg hr, if_pos hcount]
            exact ⟨rfl, rfl⟩
      · dsimp only
        rcases hbad with hrole | hcount
        · simp only [requiredRole] at hrole
          rw [if_pos hrole]
          exact ⟨rfl, rfl⟩
        · simp only [requiredCount] at hcount
          by_cases hr : player.role ≠ "Vice President"
          · rw [if_pos hr]
            exact ⟨rfl, rfl⟩
          · rw [if_neg hr, if_pos hcount]
            exact ⟨rfl, rfl⟩
      · dsimp only
        rcases hbad with hrole | hcount
        · simp only [requiredRole] at hrole
          rw [if_pos hrole]
          exact ⟨rfl, rfl⟩
        · simp only [requiredCount] at hcount
          by_cases hr : player.role ≠ "Vice Asshole"
          · rw [if_pos hr]
            exact ⟨rfl, rfl⟩
          · rw [if_neg hr, if_pos hcount]
            exact ⟨rfl, rfl⟩
      · exact absurd rfl hnc

/-- Witness: the Citizen's 2-card submission during `WAITING_PRESIDENT` is
rejected and the game is unchanged. -/
theorem human_submit_rejections_witness :
    (wG8.human_submit_exchange "X" ["3♠", "4♠"]).1.ok = false
    ∧ (wG8.human_submit_exchange "X" ["3♠", "4♠"]).2 = wG8 :=
  (human_submit_rejections wG8 "X" ["3♠", "4♠"] wP8
      [⟨.three, .spades⟩, ⟨.four, .spades⟩] (by decide) (by rfl) (by decide)).2
    ExchangeState.waiting_president rfl (by decide) (Or.inl (by decide))

/-- Counterexample to C7 as stated: after `a`'s accepted, non-round-ending
pass the table is cleared even though the card-holding player `b`, who is not
the lead, has not passed — so the table is not cleared "exactly when all
card-holding players except the lead have passed". -/
theorem pass_turn_clears_despite_unpassed_nonlead :
    (cG7.pass_turn "a").1.ok = true
    ∧ (cG7.pass_turn "a").1.round_over = false
    ∧ cG7.table_cards ≠ []
    ∧ (cG7.pass_turn "a").2.table_cards = []
    ∧ (cG7.pass_turn "a").2.table_meld_type = none
    ∧ cG7.player_order.getD cG7.lead_player_idx "" = "a"
    ∧ (∃ p ∈ cG7.players, p.player_id = "b" ∧ p.player_id ≠ "a"
        ∧ p.hand ≠ [] ∧ p.passed = false) := by decide

/-- **C7 (amended).** For every accepted `pass_turn` that does not end the
round (the passer still holds cards, at least two players hold cards, and a
meld is on the table): the table is cleared and the meld kind reset exactly
when, after marking the passer, at most one card-holding player has not
passed — regardless of who the lead is; otherwise the table content is
unchanged; in either case the pass flags are all reset exactly on a clear and
the turn then advances via the rotation. -/
theorem pass_turn_clear_condition (g : Game) (current : Player) (pid : String)
    (hcur : g.get_current_player = some current)
    (hid : current.player_id = pid)
    (hhas : current.has_cards = true)
    (h2 : 2 ≤ g.players.countP (fun p => p.has_cards))
    (htab : g.table_cards ≠ []) :
    (g.pass_turn pid).1.ok = true
    ∧ (g.pass_turn pid).1.round_over = false
    ∧ (((g.pass_turn pid).2.table_cards = []
        ∧ (g.pass_turn pid).2.table_meld_type = none)
        ↔ (g.updatePlayer pid (fun q => { q with passed := true })).players.countP
            (fun p => p.has_cards && !p.passed) ≤ 1)
    ∧ (1 < (g.updatePlayer pid (fun q => { q with passed := true })).players.countP
          (fun p => p.has_cards && !p.passed) →
        (g.pass_turn pid).2.table_cards = g.table_cards
        ∧ (g.pass_turn pid).2.table_meld_type = g.table_meld_type)
    ∧ (g.pass_turn pid).2 =
        (if (g.updatePlayer pid (fun q => { q with passed := true })).players.countP
            (fun p => p.has_cards && !p.passed) ≤ 1
         then { (g.updatePlayer pid
                  (fun q => { q with passed := true })).resetPassed with
                  table_cards := [], table_meld_type := none, lead_player_idx := 0 }
         else g.updatePlayer pid (fun q => { q with passed := true })).next_player := by
  have hpass :
      g.pass_turn pid =
        ({ ok := true },
          (if (g.updatePlayer pid (fun q => { q with passed := true })).players.countP
              (fun p => p.has_cards && !p.passed) ≤ 1
           then { (g.updatePlayer pid
                    (fun q => { q with passed := true })).resetPassed with
                    table_cards := [], table_meld_type := none, lead_player_idx := 0 }
           else g.updatePlayer pid (fun q => { q with passed := true })).next_player) := by
    unfold Game.pass_turn
    simp only [hcur, hid, hhas, ne_eq, eq_self_iff_true, not_true, false_and, if_false]
    rw [if_neg (by omega)]
  rw [hpass]
  refine ⟨rfl, rfl, ?_, ?_, rfl⟩
  · by_cases hm : (g.updatePlayer pid (fun q => { q with passed := true })).players.countP
        (fun p => p.has_cards && !p.passed) ≤ 1
    · rw [if_pos hm]
      refine iff_of_true ⟨?_, ?_⟩ hm
      · simp
      · simp
    · rw [if_neg hm]
      simp only [Game.next_player_table_cards, Game.next_player_table_meld_type,
        Game.updatePlayer_table_cards, Game.updatePlayer_table_meld_type]
      constructor
      · rintro ⟨h, -⟩
        exact absurd h htab
      · intro h
        exact absurd h hm
  · intro hm
    rw [if_neg (by omega)]
    simp

/-- The player found by `get_current_player` is the dict entry under their
own id. -/
theorem getPlayer_of_current (g : Game) (current : Player)
    (hcur : g.get_current_player = some current) :
    g.getPlayer current.player_id = some current := by
  unfold Game.get_current_player at hcur
  split_ifs at hcur
  cases ho : g.player_order[g.current_player_idx]? with
  | none => rw [ho] at hcur; simp at hcur
  | some oid =>
    rw [ho] at hcur
    dsimp only at hcur
    have hbeq : current.player_id = oid := by
      have := List.find?_some hcur
      simpa using this
    rw [hbeq]
    exact hcur

/-- A hand-preserving player update does not change how many players hold
cards. -/
theorem countP_has_cards_updatePlayer (g : Game) (pid : String) (f : Player → Player)
    (hf : ∀ p, (f p).hand = p.hand) :
    ((g.updatePlayer pid f).players.countP (fun p => p.has_cards))
      = g.players.countP (fun p => p.has_cards) := by
  simp only [Game.updatePlayer_players, List.countP_map]
  congr 1
  funext p
  by_cases h : p.player_id = pid <;> simp [Player.has_cards, h, hf]

/-- `finishIfEmpty` records a finish position but moves no cards, so the
round-over test is unchanged by it. -/
theorem game_over_finishIfEmpty (g : Game) (pid : String) :
    (g.finishIfEmpty pid).game_over = g.game_over := by
  unfold Game.finishIfEmpty
  cases hp : g.getPlayer pid with
  | none => rfl
  | some p =>
    by_cases h : p.has_cards
    · simp [h]
    · simp only [h, if_false, Bool.false_eq_true]
      unfold Game.game_over
      dsimp only
      rw [countP_has_cards_updatePlayer g pid
        (fun q => { q with finished_position := some (g.finished_count + 1) }) (fun _ => rfl)]

@[simp]
theorem players_ite (c : Prop) [Decidable c] (a b : Game) :
    (if c then a else b).players = if c then a.players else b.players :=
  apply_ite _ _ _ _

/-- After the wild branch removes the played cards and clears the pass flags,
at least two players still hold cards, provided the player kept a nonempty
hand and some other player holds cards. -/
theorem countP_after_wild (players : List Player) (pid : String) (cs : List Card)
    (current q : Player) (hcur : current ∈ players) (hq : q ∈ players)
    (hidc : current.player_id = pid) (hqid : q.player_id ≠ pid)
    (hch : cs.foldl List.erase current.hand ≠ []) (hqh : q.hand ≠ []) :
    2 ≤ ((players.map (fun p => if p.player_id == pid
            then { p with hand := cs.foldl List.erase p.hand } else p)).map
          (fun p => { p with passed := false })).countP (fun p => p.has_cards) := by
  apply two_le_countP _ _
    ((fun (p : Player) => { p with passed := false })
      ((fun (p : Player) => if p.player_id == pid
          then { p with hand := cs.foldl List.erase p.hand } else p) current))
    ((fun (p : Player) => { p with passed := false })
      ((fun (p : Player) => if p.player_id == pid
          then { p with hand := cs.foldl List.erase p.hand } else p) q))
  · exact List.mem_map_of_mem _ (List.mem_map_of_mem _ hcur)
  · exact List.mem_map_of_mem _ (List.mem_map_of_mem _ hq)
  · intro h
    have hfid := congrArg Player.player_id h
    simp only [hidc, beq_self_eq_true, if_true, beq_iff_eq] at hfid
    rw [if_neg hqid] at hfid
    exact hqid hfid.symm
  · simp [hidc, Player.has_cards, List.length_pos, hch]
  · simp [hqid, Player.has_cards, List.length_pos, hqh]

/-- The wild branch of `play_cards` as an equation: once the `2`-first meld
is resolved, either the round ends or the result signals `show_2`, in both
cases over the state with the cards moved to the table and the pass flags
cleared. -/
theorem play_cards_wild_cases (g : Game) (current : Player) (pid : String)
    (displays : List String) (c0 : Card) (rest : List Card)
    (hcur : g.get_current_player = some current)
    (hid : current.player_id = pid)
    (hfind : find_cards current.hand displays = Except.ok (c0 :: rest))
    (hvalid : (is_valid_meld (c0 :: rest)).1 = true)
    (h2 : c0.rank = Rank.two) :
    (let g1 := g.removeCards pid (c0 :: rest)
     let g2 := if g1.table_cards.isEmpty
        then { g1 with lead_player_idx := g1.current_player_idx } else g1
     let g3 : Game := { g2 with table_cards := c0 :: rest, table_meld_type := some "SINGLE" }
     let g5 := g3.resetPassed.finishIfEmpty pid
     (g5.game_over = true
        ∧ g.play_cards pid displays = ({ ok := true, round_over := true }, g5))
     ∨ (g5.game_over = false
        ∧ g.play_cards pid displays = ({ ok := true, show_2 := true }, g5))) := by
  unfold Game.play_cards
  simp only [hcur, hid, hfind, hvalid, h2]
  split_ifs <;> simp_all

/-- **C3 (amended).** In the playing phase, when it is `P`'s turn and `P`
holds a card of rank 2, playing that single 2 through the `on_play` handler
succeeds regardless of the current table meld (no compare is consulted);
immediately after the follow-up clear, the table is empty, the meld kind is
reset, every pass flag is cleared — and the turn stays with the same player
(the rotation is not advanced). The provisos make the play non-round-ending:
`P` keeps at least one card and some other player still holds cards. -/
theorem wild_single_two_spec (g : Game) (current : Player) (pid : String) (c : Card)
    (q : Player)
    (hcur : g.get_current_player = some current)
    (hid : current.player_id = pid)
    (hshow : g.showing_2 = false)
    (hc : c ∈ current.hand)
    (h2 : c.rank = Rank.two)
    (hlen : 2 ≤ current.hand.length)
    (hq : q ∈ g.players) (hqid : q.player_id ≠ pid) (hqh : q.hand ≠ []) :
    (g.on_play_step pid [c.display]).1.ok = true
    ∧ (g.on_play_step pid [c.display]).1.show_2 = true
    ∧ (g.on_play_step pid [c.display]).2.table_cards = []
    ∧ (g.on_play_step pid [c.display]).2.table_meld_type = none
    ∧ (∀ p ∈ (g.on_play_step pid [c.display]).2.players, p.passed = false)
    ∧ (g.on_play_step pid [c.display]).2.current_player_idx = g.current_player_idx := by
  have hfindc : current.hand.find? (fun x => x.display == c.display) = some c := by
    cases hfx : current.hand.find? (fun x => x.display == c.display) with
    | none =>
      have := List.find?_eq_none.mp hfx c hc
      simp at this
    | some x =>
      have hxd : x.display = c.display := by simpa using List.find?_some hfx
      rw [Card.display_inj x c hxd]
  have hfind : find_cards current.hand [c.display] = Except.ok [c] := by
    simp [find_cards, hfindc]
  have herase : current.hand.erase c ≠ [] := by
    have hl := List.length_erase_of_mem hc
    intro hnil
    rw [hnil] at hl
    simp at hl
    omega
  have hmem : current ∈ g.players := by
    have hgp := getPlayer_of_current g current hcur
    unfold Game.getPlayer at hgp
    exact List.mem_of_find?_eq_some hgp
  rw [← hid] at hqid
  have hcases := play_cards_wild_cases g current pid [c.display] c [] hcur hid hfind rfl h2
  dsimp only at hcases
  rcases hcases with ⟨hgo, heq⟩ | ⟨hgo, heq⟩
  · exfalso
    rw [game_over_finishIfEmpty] at hgo
    unfold Game.game_over at hgo
    simp only [decide_eq_true_eq, Game.resetPassed_players, players_ite, ite_self,
      Game.removeCards_players, Game.updatePlayer_players] at hgo
    have hge := countP_after_wild g.players current.player_id [c] current q hmem hq rfl hqid
      (by simpa using herase) hqh
    rw [hid] at hge
    omega
  · unfold Game.on_play_step
    rw [if_neg (by simp [hshow])]
    rw [heq]
    rw [if_neg (by simp), if_neg (by simp), if_pos rfl]
    refine ⟨rfl, rfl, rfl, rfl, ?_, ?_⟩
    · intro p hp
      simp only [Game.resetPassed_players, List.mem_map] at hp
      obtain ⟨p0, -, rfl⟩ := hp
      rfl
    · simp [Game.finishIfEmpty_current_idx, Game.resetPassed_current_idx,
        apply_ite Game.current_player_idx, ite_self]

/-- **C1 (evaluation at the failing input).** The President submits `3♠ 4♠`
to the computer Asshole, and the submission reports success — but instead of
a 2-for-2 swap, only the last card crosses in each direction (the `add_card`
calls sit outside their loops in the source): the President ends with
`5♠ 8♠`, the Asshole with `4♠ 6♠`, and the cards `3♠` and `7♠` leave play
entirely (6 cards in the hands before, 4 after). -/
theorem exchange_two_card_loss :
    (sG.exec_exchange_submission "P" [⟨.three, .spades⟩, ⟨.four, .spades⟩]).1 = true
    ∧ ((sG.exec_exchange_submission "P" [⟨.three, .spades⟩, ⟨.four, .spades⟩]).2.players.map
        (fun p => p.hand)) =
      [[⟨.five, .spades⟩, ⟨.eight, .spades⟩], [⟨.four, .spades⟩, ⟨.six, .spades⟩]]
    ∧ sG.totalCount = 6
    ∧ (sG.exec_exchange_submission "P" [⟨.three, .spades⟩, ⟨.four, .spades⟩]).2.totalCount = 4 := by
  decide

/-- **C2 (evaluation at the failing input).** Immediately after dealing, the
hands plus the table hold exactly the 52-card deck. The President then
submits `3♠ 3♦`; the exchange completes (sub-state `COMPLETE`, phase back to
`playing`) — and only 50 cards remain in play, so the deck invariant no
longer holds at the start of the new round. -/
theorem deck_invariant_broken_after_exchange :
    dG.totalCount = 52
    ∧ dG.allCards = (fullDeck : Multiset Card)
    ∧ (dG.human_submit_exchange "P" ["3♠", "3♦"]).1.ok = true
    ∧ (dG.human_submit_exchange "P" ["3♠", "3♦"]).2.state = "playing"
    ∧ (dG.human_submit_exchange "P" ["3♠", "3♦"]).2.exchange_state_enum
        = some ExchangeState.complete
    ∧ (dG.human_submit_exchange "P" ["3♠", "3♦"]).2.totalCount = 50 := by
  decide

/-- Counterexample to C3 as stated: `p1`'s single `2` is accepted over the
unbeaten `4♥` and the table is reported cleared — but play does **not** pass
to the next eligible player: the current player is still `p1`, while `p2`
holds cards and would be the next eligible player. -/
theorem wild_reset_keeps_turn :
    (cG3.on_play_step "p1" ["2♠"]).1.ok = true
    ∧ (cG3.on_play_step "p1" ["2♠"]).1.show_2 = true
    ∧ (cG3.on_play_step "p1" ["2♠"]).2.table_cards = []
    ∧ (cG3.on_play_step "p1" ["2♠"]).2.current_player_idx = 0
    ∧ ((cG3.on_play_step "p1" ["2♠"]).2.get_current_player).map (fun p => p.player_id)
        = some "p1"
    ∧ (∃ p ∈ (cG3.on_play_step "p1" ["2♠"]).2.players, p.player_id = "p2" ∧ p.hand ≠ []) := by
  decide

/-- Witness for the amended wild-reset theorem at the concrete game `cG3`. -/
theorem wild_single_two_spec_witness :
    (cG3.on_play_step "p1" [Card.display ⟨.two, .spades⟩]).1.ok = true
    ∧ (cG3.on_play_step "p1" [Card.display ⟨.two, .spades⟩]).2.table_cards = []
    ∧ (cG3.on_play_step "p1" [Card.display ⟨.two, .spades⟩]).2.current_player_idx
        = cG3.current_player_idx :=
  have h := wild_single_two_spec cG3 cP3 "p1" ⟨.two, .spades⟩ cQ3 (by decide) rfl rfl
    (by decide) rfl (by decide) (by decide) (by decide) (by decide)
  ⟨h.1, h.2.2.1, h.2.2.2.2.2⟩

/-- Witness for the amended pass-turn theorem at the concrete game `cG7`:
the pass is accepted and the clear happens exactly per the counting
condition. -/
theorem pass_turn_clear_condition_witness :
    (cG7.pass_turn "a").1.ok = true
    ∧ (((cG7.pass_turn "a").2.table_cards = []
        ∧ (cG7.pass_turn "a").2.table_meld_type = none)
        ↔ (cG7.updatePlayer "a" (fun q => { q with passed := true })).players.countP
            (fun p => p.has_cards && !p.passed) ≤ 1) :=
  ⟨(pass_turn_clear_condition cG7 cA7 "a" (by decide) rfl (by decide) (by decide)
      (by decide)).1,
   (pass_turn_clear_condition cG7 cA7 "a" (by decide) rfl (by decide) (by decide)
      (by decide)).2.2.1⟩

end President
